import Mathlib

/-!
Shallow embedding of the Silicon.net DefiLlama adapter
(`projects/silicon/index.js`) and proofs about it.

The adapter has four parts, each embedded below from the source:
* `GPU_PRICES` / `normalizeGPUType` — the fixed price table and the
  substring classifier (strings are modelled as their character lists,
  `toUpperCase` as `Char.toUpper` over the characters, and the JS falsy
  check `!gpuType` on a possibly-absent string field as `Option String`
  being `none` or the empty string);
* `calculateGPUValue` — counts per table key accumulated by a left fold
  over the record list (the JS counts object becomes a function from keys
  to counts; the deduplicated `uncategorizedGPUs` diagnostic array is the
  second state component), then a fold over the table summing
  `count * price`;
* `fetchLoop` / `fetchAllGPUNFTs` — the pagination `while (true)` loop,
  with the remote endpoint abstracted as a function from page numbers to
  a `PageResult` (a thrown transport error, a response whose `data` field
  is absent or not an array, or a record list) and an explicit fuel
  argument standing for the unbounded loop; the returned pair also
  carries the list of requested page numbers;
* `tokens` — the token-supply entry point, with the permit-failure
  on-chain read abstracted as an `Option Int` and the calls to `api.add`
  returned as an association list.
-/

namespace Silicon

/-- Uppercase a string characterwise, as JS `toUpperCase` does on the
ASCII strings involved; modelled on the character list. -/
def upChars (s : String) : List Char := s.data.map Char.toUpper

/-- Boolean list-prefix test, used to express JS `String.includes`. -/
def isPrefixChars : List Char → List Char → Bool
  | [], _ => true
  | _ :: _, [] => false
  | a :: as, b :: bs => a == b && isPrefixChars as bs

/-- JS `s.includes(pat)`: `pat` occurs contiguously in `s`. -/
def strContains : List Char → List Char → Bool
  | [], pat => pat.isEmpty
  | c :: t, pat => isPrefixChars pat (c :: t) || strContains t pat

/-- `pat` is a contiguous substring of `s` (the specification-level
meaning of JS `includes`). -/
def SubstringOf (pat s : List Char) : Prop := ∃ l r, s = l ++ pat ++ r

/-- The fixed GPU price table, in its JS definition order
(`GPU_PRICES` in the source). -/
def GPU_PRICES : List (String × Int) :=
  [("4090", 3500), ("5090", 5000), ("H100", 21000), ("H200", 31000),
   ("A6000", 6000), ("A5000", 2000), ("4000Ada", 1500)]

/-- `Object.keys(GPU_PRICES)`, in definition order. -/
def gpuKeys : List String := GPU_PRICES.map Prod.fst

/-- The `for (const key of Object.keys(GPU_PRICES))` loop body of
`normalizeGPUType`: return the first key whose uppercase form the
(already uppercased) input contains. -/
def findKey (type : List Char) : List String → Option String
  | [] => none
  | key :: rest =>
    if strContains type (upChars key) then some key else findKey type rest

/-- `normalizeGPUType(gpuType)` from the source: falsy input (absent or
empty string) yields `null`; otherwise scan the table keys in order. -/
def normalizeGPUType (gpuType : Option String) : Option String :=
  match gpuType with
  | none => none
  | some s => if s = "" then none else findKey (upChars s) gpuKeys

/-- One fetched record: the `gpu_type` field (possibly absent) and the
rest of the object, opaque to the adapter. -/
structure GPURecord where
  gpu_type : Option String
  rest : String
  deriving DecidableEq

/-- Modelled from the spec: the classifier as §4.1 words it — normalize
case, then take the first table key (definition order) whose uppercase
form the uppercased input contains; "no match" for empty/absent input. -/
def classifierSpec (gpuType : Option String) : Option String :=
  match gpuType with
  | none => none
  | some s =>
    if s = "" then none
    else gpuKeys.find? (fun key => strContains (upChars s) (upChars key))

/-- The dedup push onto `uncategorizedGPUs`:
`if (!uncategorizedGPUs.includes(gpu.gpu_type)) push`. -/
def pushUncat (uncat : List (Option String)) (t : Option String) :
    List (Option String) :=
  if uncat.contains t then uncat else uncat ++ [t]

/-- One iteration of the `gpus.forEach` loop in `calculateGPUValue`:
state is (the counts object as a function on keys, the deduplicated
uncategorized list). -/
def calcStep (st : (String → Nat) × List (Option String)) (g : GPURecord) :
    (String → Nat) × List (Option String) :=
  match normalizeGPUType g.gpu_type with
  | some k =>
    if gpuKeys.contains k then
      ((fun j => if j = k then st.1 j + 1 else st.1 j), st.2)
    else
      (st.1, pushUncat st.2 g.gpu_type)
  | none => (st.1, pushUncat st.2 g.gpu_type)

/-- `calculateGPUValue(gpus)` together with its `uncategorizedGPUs`
diagnostic list: counts initialized to 0 for every key, one fold over
the records, then `totalValue` accumulated over `Object.keys(GPU_PRICES)`. -/
def calculateGPUValueFull (gpus : List GPURecord) :
    Int × List (Option String) :=
  let st := gpus.foldl calcStep ((fun _ => 0), [])
  (GPU_PRICES.foldl (fun acc p => acc + (st.1 p.1 : Int) * p.2) 0, st.2)

/-- The number the source's `calculateGPUValue` returns. -/
def calculateGPUValue (gpus : List GPURecord) : Int :=
  (calculateGPUValueFull gpus).1

/-- Count of records the classifier sends to a given table key. -/
def classifiedCount (gpus : List GPURecord) (key : String) : Nat :=
  gpus.countP (fun g => normalizeGPUType g.gpu_type == some key)

/-- What one page request can yield: a thrown transport/parse error, a
response whose `data` is absent or not an array, or a record list. -/
inductive PageResult where
  | throws : PageResult
  | ok : Option (List GPURecord) → PageResult
  deriving DecidableEq

/-- `const pageSize = 100`. -/
def pageSize : Nat := 100

/-- The `while (true)` pagination loop of `fetchAllGPUNFTs`, with fuel
standing for the unbounded iteration; returns the accumulated records
and the list of page numbers requested. -/
def fetchLoop (endpoint : Nat → PageResult) :
    Nat → Nat → List GPURecord → List Nat → List GPURecord × List Nat
  | 0, _, acc, reqs => (acc, reqs)
  | fuel + 1, page, acc, reqs =>
    match endpoint page with
    | PageResult.throws => (acc, reqs ++ [page])
    | PageResult.ok none => (acc, reqs ++ [page])
    | PageResult.ok (some gpuData) =>
      if gpuData.length = 0 then (acc, reqs ++ [page])
      else if gpuData.length < pageSize then (acc ++ gpuData, reqs ++ [page])
      else fetchLoop endpoint fuel (page + 1) (acc ++ gpuData) (reqs ++ [page])

/-- `fetchAllGPUNFTs()`: start at page 1 with an empty accumulator. -/
def fetchAllGPUNFTs (fuel : Nat) (endpoint : Nat → PageResult) :
    List GPURecord × List Nat :=
  fetchLoop endpoint fuel 1 [] []

/-- `const POOL_TOKEN = ...` from the source. -/
def POOL_TOKEN : String := "0xb59781c5bf9330b9bb7ce64df7cc118fec28b744"

/-- JS truthiness of a number: falsy exactly at 0 (NaN is not modelled). -/
def jsTruthy (v : Int) : Bool := v != 0

/-- The `tokens(api)` entry point: the permit-failure `totalSupply` read
abstracted as an `Option Int`; the result lists the `api.add` calls made
(token address, raw amount). -/
def tokens (poolTokenSupply : Option Int) : List (String × Int) :=
  match poolTokenSupply with
  | none => []
  | some v => if jsTruthy v then [(POOL_TOKEN, v)] else []

/-- The synthetic record set of spec §8: 2×"RTX 4090", 1×"H100-SXM",
1×"unknownGPU". -/
def c3Records : List GPURecord :=
  [⟨some "RTX 4090", ""⟩, ⟨some "RTX 4090", ""⟩,
   ⟨some "H100-SXM", ""⟩, ⟨some "unknownGPU", ""⟩]

/-- A full page of records, for the pagination mocks. -/
def fullPage (t : String) : List GPURecord :=
  List.replicate pageSize ⟨some t, ""⟩

/-- Mock endpoint: a full page 1, then a thrown error on page 2. -/
def throwingEndpoint : Nat → PageResult :=
  fun p => if p = 1 then PageResult.ok (some (fullPage "4090")) else PageResult.throws

/-- Mock endpoint: full pages 1 and 2, an empty page 3. -/
def threePageEndpoint : Nat → PageResult :=
  fun p =>
    if p = 1 then PageResult.ok (some (fullPage "4090"))
    else if p = 2 then PageResult.ok (some (fullPage "H100"))
    else PageResult.ok (some [])

/-- Mock endpoint: a single short page. -/
def shortEndpoint : Nat → PageResult :=
  fun _ => PageResult.ok (some [⟨some "5090", ""⟩])

/- ### Helper lemmas -/

theorem isPrefixChars_iff (p : List Char) :
    ∀ s, isPrefixChars p s = true ↔ ∃ r, s = p ++ r := by
  induction p with
  | nil => intro s; simp [isPrefixChars]
  | cons a as ih =>
    intro s
    cases s with
    | nil =>
      simp only [isPrefixChars]
      constructor
      · intro h; exact absurd h (by simp)
      · rintro ⟨r, hr⟩; simp at hr
    | cons b bs =>
      simp only [isPrefixChars, Bool.and_eq_true, beq_iff_eq, ih]
      constructor
      · rintro ⟨rfl, r, rfl⟩; exact ⟨r, rfl⟩
      · rintro ⟨r, hr⟩
        injection hr with h1 h2
        exact ⟨h1.symm, r, h2⟩

theorem strContains_iff (s : List Char) :
    ∀ pat, strContains s pat = true ↔ SubstringOf pat s := by
  induction s with
  | nil =>
    intro pat
    simp only [strContains, SubstringOf, List.isEmpty_iff]
    constructor
    · rintro rfl; exact ⟨[], [], rfl⟩
    · rintro ⟨l, r, hr⟩
      have := hr.symm
      simp [List.append_eq_nil] at this
      exact this.2.1
  | cons c t ih =>
    intro pat
    simp only [strContains, Bool.or_eq_true, isPrefixChars_iff, ih, SubstringOf]
    constructor
    · rintro (⟨r, hr⟩ | ⟨l, r, hr⟩)
      · exact ⟨[], r, by simpa using hr⟩
      · exact ⟨c :: l, r, by simp [hr]⟩
    · rintro ⟨l, r, hr⟩
      cases l with
      | nil => exact Or.inl ⟨r, by simpa using hr⟩
      | cons x xs =>
        injection hr with h1 h2
        exact Or.inr ⟨xs, r, h2⟩

theorem findKey_eq_findFirst (t : List Char) :
    ∀ l : List String,
      findKey t l = l.find? (fun key => strContains t (upChars key)) := by
  intro l
  induction l with
  | nil => rfl
  | cons a rest ih =>
    rw [findKey, List.find?_cons]
    by_cases h : strContains t (upChars a) = true
    · simp [h]
    · simp only [Bool.not_eq_true] at h
      simp [h, ih]

theorem findKey_mem {t : List Char} {k : String} :
    ∀ {l : List String}, findKey t l = some k → k ∈ l := by
  intro l
  induction l with
  | nil => intro h; exact absurd h (by simp [findKey])
  | cons a rest ih =>
    intro h
    rw [findKey] at h
    by_cases hc : strContains t (upChars a) = true
    · rw [if_pos hc] at h
      injection h with h
      exact h ▸ List.mem_cons_self a rest
    · rw [if_neg hc] at h
      exact List.mem_cons_of_mem a (ih h)

theorem normalize_mem {g : Option String} {k : String}
    (h : normalizeGPUType g = some k) : k ∈ gpuKeys := by
  cases g with
  | none => exact absurd h (by simp [normalizeGPUType])
  | some s =>
    rw [normalizeGPUType] at h
    by_cases hs : s = ""
    · rw [if_pos hs] at h; exact absurd h (by simp)
    · rw [if_neg hs] at h; exact findKey_mem h

theorem foldl_add_eq_sum (f : String × Int → Int) :
    ∀ (l : List (String × Int)) (a : Int),
      l.foldl (fun acc p => acc + f p) a = a + (l.map f).sum := by
  intro l
  induction l with
  | nil => intro a; simp
  | cons p rest ih =>
    intro a
    simp only [List.foldl_cons, List.map_cons, List.sum_cons, ih]
    ring

theorem counts_foldl (key : String) :
    ∀ (gpus : List GPURecord) (f : String → Nat) (u : List (Option String)),
      (gpus.foldl calcStep (f, u)).1 key
        = f key + gpus.countP (fun g => normalizeGPUType g.gpu_type == some key) := by
  intro gpus
  induction gpus with
  | nil => intro f u; simp [List.countP_nil]
  | cons g gs ih =>
    intro f u
    rw [List.foldl_cons, List.countP_cons]
    cases hng : normalizeGPUType g.gpu_type with
    | none =>
      have hstep : calcStep (f, u) g = (f, pushUncat u g.gpu_type) := by
        rw [calcStep, hng]
      rw [hstep, ih]
      simp [hng]
    | some k =>
      have hk : k ∈ gpuKeys := normalize_mem hng
      have hc : gpuKeys.contains k = true := List.elem_iff.mpr hk
      have hstep : calcStep (f, u) g
          = ((fun j => if j = k then f j + 1 else f j), u) := by
        rw [calcStep, hng]
        simp [hk]
      rw [hstep, ih]
      by_cases hkey : key = k
      · subst hkey; simp [hng]; omega
      · have : (some k == some key) = false := by
          simp [beq_eq_false_iff_ne]
          exact fun hkk => hkey (hkk ▸ rfl)
        simp [hng, hkey, this]

theorem total_eq_sum (gpus : List GPURecord) :
    calculateGPUValue gpus
      = (GPU_PRICES.map (fun p => (classifiedCount gpus p.1 : Int) * p.2)).sum := by
  have h1 : calculateGPUValue gpus
      = GPU_PRICES.foldl
          (fun acc p =>
            acc + ((gpus.foldl calcStep ((fun _ => 0), [])).1 p.1 : Int) * p.2) 0 := rfl
  rw [h1, foldl_add_eq_sum, zero_add]
  refine congrArg List.sum (List.map_congr_left ?_)
  intro p _
  rw [counts_foldl]
  simp [classifiedCount]

theorem fetchLoop_full_step (endpoint : Nat → PageResult) (fuel page : Nat)
    (acc : List GPURecord) (reqs : List Nat) (d : List GPURecord)
    (h : endpoint page = PageResult.ok (some d)) (hl : d.length = pageSize) :
    fetchLoop endpoint (fuel + 1) page acc reqs
      = fetchLoop endpoint fuel (page + 1) (acc ++ d) (reqs ++ [page]) := by
  rw [fetchLoop]
  simp only [h]
  rw [if_neg (by simp [hl, pageSize]), if_neg (by simp [hl])]

theorem fetchLoop_empty_stop (endpoint : Nat → PageResult) (fuel page : Nat)
    (acc : List GPURecord) (reqs : List Nat)
    (h : endpoint page = PageResult.ok (some [])) :
    fetchLoop endpoint (fuel + 1) page acc reqs = (acc, reqs ++ [page]) := by
  rw [fetchLoop]
  simp only [h]
  simp

/- ### The claims -/

/-- C1: for every input, the classifier returns the first price-table
key, in the table's fixed definition order, whose uppercase form is a
substring of the uppercased input (`classifierSpec` states this with
`List.find?`, and `strContains` is proved to mean contiguous-substring
containment); an absent or empty input yields no match. -/
theorem normalizeGPUType_matches_spec :
    (∀ g : Option String, normalizeGPUType g = classifierSpec g) ∧
    (∀ s pat : List Char, strContains s pat = true ↔ SubstringOf pat s) ∧
    normalizeGPUType none = none ∧ normalizeGPUType (some "") = none := by
  refine ⟨?_, fun s pat => strContains_iff s pat, rfl, rfl⟩
  intro g
  cases g with
  | none => rfl
  | some s =>
    rw [normalizeGPUType, classifierSpec]
    by_cases hs : s = ""
    · simp [hs]
    · rw [if_neg hs, if_neg hs]
      exact findKey_eq_findFirst (upChars s) gpuKeys

/-- C2: `calculateGPUValue` returns a single non-negative number equal to
the sum over the price-table types of (count of records classified to
that type × that type's unit price), and a record the classifier sends to
no match contributes zero to the total. -/
theorem calculateGPUValue_sum_of_counts (gpus : List GPURecord)
    (r : GPURecord) (hr : normalizeGPUType r.gpu_type = none) :
    0 ≤ calculateGPUValue gpus ∧
    calculateGPUValue gpus
      = (GPU_PRICES.map (fun p => (classifiedCount gpus p.1 : Int) * p.2)).sum ∧
    calculateGPUValue (r :: gpus) = calculateGPUValue gpus := by
  refine ⟨?_, total_eq_sum gpus, ?_⟩
  · rw [total_eq_sum]
    apply List.sum_nonneg
    intro x hx
    simp only [List.mem_map] at hx
    obtain ⟨p, hp, rfl⟩ := hx
    have hall : ∀ q ∈ GPU_PRICES, (0 : Int) ≤ q.2 := by decide
    exact mul_nonneg (Int.natCast_nonneg _) (hall p hp)
  · rw [total_eq_sum, total_eq_sum]
    refine congrArg List.sum (List.map_congr_left ?_)
    intro p _
    have hcount : classifiedCount (r :: gpus) p.1 = classifiedCount gpus p.1 := by
      rw [classifiedCount, classifiedCount, List.countP_cons_of_neg]
      simp [hr]
    rw [hcount]

theorem calculateGPUValue_sum_of_counts_witness :
    normalizeGPUType (GPURecord.mk (some "unknownGPU") "").gpu_type = none ∧
    calculateGPUValue [GPURecord.mk (some "unknownGPU") ""] = calculateGPUValue [] :=
  ⟨by decide,
   (calculateGPUValue_sum_of_counts [] (GPURecord.mk (some "unknownGPU") "")
     (by decide)).2.2⟩

/-- C3: on the synthetic record set 2×"RTX 4090", 1×"H100-SXM",
1×"unknownGPU", the valuation is exactly 28000 = 2×3500 + 1×21000, with
exactly one record unclassified (the diagnostic list holds just
"unknownGPU", and exactly one record classifies to no match). -/
theorem c3Records_valuation :
    calculateGPUValueFull c3Records = (28000, [some "unknownGPU"]) ∧
    (28000 : Int) = 2 * 3500 + 1 * 21000 ∧
    c3Records.countP (fun g => normalizeGPUType g.gpu_type == none) = 1 := by
  refine ⟨by decide, by decide, by decide⟩

/-- C4: a thrown error on a page terminates the loop immediately and
returns exactly the records accumulated from the preceding pages (the
embedded loop returns totally, i.e. nothing is raised); in particular
with a full page 1 and a throw on page 2, only page 1's records come
back, after requests to pages 1 and 2. -/
theorem fetch_throw_keeps_accumulated (endpoint : Nat → PageResult)
    (d1 : List GPURecord) (n fuel : Nat) (acc : List GPURecord) (reqs : List Nat)
    (h1 : endpoint 1 = PageResult.ok (some d1)) (hl1 : d1.length = pageSize)
    (h2 : endpoint 2 = PageResult.throws) :
    fetchLoop endpoint (fuel + 1) 2 acc reqs = (acc, reqs ++ [2]) ∧
    fetchAllGPUNFTs (n + 2) endpoint = (d1, [1, 2]) := by
  have habort : ∀ (fl : Nat) (a : List GPURecord) (r : List Nat),
      fetchLoop endpoint (fl + 1) 2 a r = (a, r ++ [2]) := by
    intro fl a r
    rw [fetchLoop, h2]
  refine ⟨habort fuel acc reqs, ?_⟩
  rw [fetchAllGPUNFTs, show n + 2 = (n + 1) + 1 from rfl,
    fetchLoop_full_step endpoint (n + 1) 1 [] [] d1 h1 hl1]
  show fetchLoop endpoint (n + 1) 2 d1 [1] = (d1, [1, 2])
  rw [habort n d1 [1]]
  rfl

theorem fetch_throw_keeps_accumulated_witness :
    fetchAllGPUNFTs 2 throwingEndpoint = (fullPage "4090", [1, 2]) :=
  (fetch_throw_keeps_accumulated throwingEndpoint (fullPage "4090") 0 0 [] []
    rfl (by simp [fullPage]) rfl).2

/-- C5 counterexample: the claim fails as stated — a permit-failure read
that yields the value 0 (a value that was obtained) reports nothing, so
the value is not passed on verbatim. -/
theorem tokens_zero_value_counterexample :
    tokens (some 0) = [] ∧ tokens (some 0) ≠ [(POOL_TOKEN, 0)] := by
  refine ⟨by decide, by decide⟩

/-- C5 (amended): if the permit-failure read yields a nonzero (truthy)
value, it is reported verbatim keyed by the fixed pool-token address — in
particular a mock 12345 is reported as exactly 12345 — and if it yields
no value, nothing is reported. -/
theorem tokens_reports_nonzero (v : Int) (h : v ≠ 0) :
    tokens (some v) = [(POOL_TOKEN, v)] ∧ tokens none = []
      ∧ tokens (some 12345) = [(POOL_TOKEN, 12345)] := by
  refine ⟨?_, rfl, by decide⟩
  simp [tokens, jsTruthy, h]

theorem tokens_reports_nonzero_witness :
    (12345 : Int) ≠ 0 ∧ tokens (some 12345) = [(POOL_TOKEN, 12345)] :=
  ⟨by decide, (tokens_reports_nonzero 12345 (by decide)).1⟩

/-- C6: with full pages 1 and 2 and an empty page 3, the fetcher returns
exactly the concatenation of pages 1 and 2, in order, after requests to
pages 1, 2 and 3. -/
theorem fetch_three_pages (endpoint : Nat → PageResult)
    (d1 d2 : List GPURecord) (n : Nat)
    (h1 : endpoint 1 = PageResult.ok (some d1)) (hl1 : d1.length = pageSize)
    (h2 : endpoint 2 = PageResult.ok (some d2)) (hl2 : d2.length = pageSize)
    (h3 : endpoint 3 = PageResult.ok (some [])) :
    fetchAllGPUNFTs (n + 3) endpoint = (d1 ++ d2, [1, 2, 3]) := by
  rw [fetchAllGPUNFTs, show n + 3 = (n + 2) + 1 from rfl,
    fetchLoop_full_step endpoint (n + 2) 1 [] [] d1 h1 hl1]
  show fetchLoop endpoint ((n + 1) + 1) 2 d1 [1] = (d1 ++ d2, [1, 2, 3])
  rw [fetchLoop_full_step endpoint (n + 1) 2 d1 [1] d2 h2 hl2]
  show fetchLoop endpoint (n + 1) 3 (d1 ++ d2) [1, 2] = (d1 ++ d2, [1, 2, 3])
  rw [fetchLoop_empty_stop endpoint n 3 (d1 ++ d2) [1, 2] h3]
  rfl

theorem fetch_three_pages_witness :
    fetchAllGPUNFTs 3 threePageEndpoint
      = (fullPage "4090" ++ fullPage "H100", [1, 2, 3]) :=
  fetch_three_pages threePageEndpoint (fullPage "4090") (fullPage "H100") 0
    rfl (by simp [fullPage]) rfl (by simp [fullPage]) rfl

/-- C7: a first page shorter than `pageSize` stops the fetcher after
exactly one request, returning that page's records. -/
theorem fetch_short_first_page (endpoint : Nat → PageResult)
    (d : List GPURecord) (n : Nat)
    (h1 : endpoint 1 = PageResult.ok (some d)) (hlen : d.length < pageSize) :
    fetchAllGPUNFTs (n + 1) endpoint = (d, [1]) := by
  rw [fetchAllGPUNFTs, fetchLoop]
  simp only [h1]
  by_cases hz : d.length = 0
  · rw [List.length_eq_zero] at hz
    subst hz
    simp
  · rw [if_neg hz, if_pos hlen]
    simp

theorem fetch_short_first_page_witness :
    fetchAllGPUNFTs 1 shortEndpoint = ([⟨some "5090", ""⟩], [1]) :=
  fetch_short_first_page shortEndpoint [⟨some "5090", ""⟩] 0 rfl (by decide)

/-- C8: the valuation total is deterministic — it is a function of the
records' `gpu_type` fields only, so two evaluations on the same list
(whatever the opaque remainder of each record holds) yield the same
total. -/
theorem calculateGPUValue_deterministic (g1 g2 : List GPURecord)
    (h : g1.map (fun g => g.gpu_type) = g2.map (fun g => g.gpu_type)) :
    calculateGPUValue g1 = calculateGPUValue g2 := by
  rw [total_eq_sum, total_eq_sum]
  refine congrArg List.sum (List.map_congr_left ?_)
  intro p _
  have e1 : classifiedCount g1 p.1
      = List.countP (fun t => normalizeGPUType t == some p.1)
          (g1.map (fun g => g.gpu_type)) := by
    rw [List.countP_map]; rfl
  have e2 : classifiedCount g2 p.1
      = List.countP (fun t => normalizeGPUType t == some p.1)
          (g2.map (fun g => g.gpu_type)) := by
    rw [List.countP_map]; rfl
  rw [e1, e2, h]

theorem calculateGPUValue_deterministic_witness :
    calculateGPUValue [⟨some "RTX 4090", "a"⟩]
      = calculateGPUValue [⟨some "RTX 4090", "b"⟩] :=
  calculateGPUValue_deterministic
    [⟨some "RTX 4090", "a"⟩] [⟨some "RTX 4090", "b"⟩] rfl

/-- C9: a falsy on-chain supply value — in particular the number 0, a
value that was obtained — causes nothing to be reported, because the
presence check is a JS truthiness test. -/
theorem tokens_falsy_reports_nothing (v : Int) (h : jsTruthy v = false) :
    tokens (some v) = [] := by
  simp [tokens, h]

theorem tokens_falsy_reports_nothing_witness :
    jsTruthy 0 = false ∧ tokens (some 0) = [] :=
  ⟨by decide, tokens_falsy_reports_nothing 0 (by decide)⟩

/-- C10: the valuation total is invariant under permutation of the input
record list. -/
theorem calculateGPUValue_perm_invariant (g1 g2 : List GPURecord)
    (h : g1.Perm g2) : calculateGPUValue g1 = calculateGPUValue g2 := by
  rw [total_eq_sum, total_eq_sum]
  refine congrArg List.sum (List.map_congr_left ?_)
  intro p _
  rw [classifiedCount, classifiedCount, List.Perm.countP_eq _ h]

theorem calculateGPUValue_perm_invariant_witness :
    calculateGPUValue [⟨some "RTX 4090", ""⟩, ⟨some "H100", ""⟩]
      = calculateGPUValue [⟨some "H100", ""⟩, ⟨some "RTX 4090", ""⟩] :=
  calculateGPUValue_perm_invariant
    [⟨some "RTX 4090", ""⟩, ⟨some "H100", ""⟩]
    [⟨some "H100", ""⟩, ⟨some "RTX 4090", ""⟩]
    (List.Perm.swap _ _ _)

end Silicon
